import Mathlib

/-!
Verification of the Cloud-Sandbox-for-Coding-Agents core against its
specification.  The Go sources are shallowly embedded: each Go method
becomes a pure Lean function (external effects such as the Docker
backend, the wall clock and the archive store are passed in as explicit
parameters), and the lock-protected critical sections of the pool become
the constructors of a step relation so that invariants can be proved over
every interleaving.

Time is modelled as `Nat` (nanoseconds since some epoch); Go `time.Time`
comparisons translate to `Nat` comparisons and Go's `time.Sub` to
truncated `Nat` subtraction.  Go maps are modelled as association lists
(pool) or as functions `String → Option _` (session store/cache); keys
handled by the code are unique, so both faithfully track map sizes and
lookups.
-/

namespace CloudSandbox

/-! ## Sandbox data model (src/internal/sandbox/pool.go, types section) -/

/-- Sandbox status, from the `Status` constants in the sandbox package. -/
inductive SbStatus
  | creating
  | idle
  | active
  | paused
  | stopped
  | error
deriving DecidableEq, Repr

/-- The `Sandbox` struct: id, status, container id, image, ip and the two
timestamps.  `Labels` is carried as an association list. -/
structure Sandbox where
  sbId : String
  status : SbStatus
  containerId : String
  image : String
  ip : String
  createdAt : Nat
  lastActiveAt : Nat
  labels : List (String × String)
deriving DecidableEq, Repr

/-! ## Pool model (src/internal/sandbox/pool.go) -/

/-- `PoolConfig`: the numeric fields relevant to pool bookkeeping. -/
structure PoolConfig where
  minSize : Nat
  maxSize : Nat
  warmupSize : Nat
  idleTimeout : Nat
deriving DecidableEq, Repr

/-- The mutable pool state guarded by `Pool.mu`: the idle stack, the
active map (as an association list keyed by sandbox id), the `creating`
counter and the `closed` flag. -/
structure PoolState where
  idle : List Sandbox
  active : List (String × Sandbox)
  creating : Nat
  closed : Bool
deriving DecidableEq, Repr

/-- The state `NewPool` starts from: empty collections, not closed. -/
def poolInit : PoolState :=
  { idle := [], active := [], creating := 0, closed := false }

/-- `len(p.active) + len(p.idle) + p.creating`, the quantity `Acquire`
compares against `MaxSize` (pool.go line 106). -/
def totalCount (st : PoolState) : Nat :=
  st.active.length + st.idle.length + st.creating

/-- Lookup in the active map (`p.active[id]`). -/
def activeLookup (l : List (String × Sandbox)) (id : String) : Option Sandbox :=
  match l.find? (fun p => p.1 == id) with
  | some p => some p.2
  | none => none

/-- Deletion from the active map (`delete(p.active, id)`). -/
def activeRemove (l : List (String × Sandbox)) (id : String) : List (String × Sandbox) :=
  l.filter (fun p => p.1 != id)

/-- The mutation `Acquire` performs on a sandbox it hands out from the
idle pool: `sb.Status = StatusActive; sb.LastActiveAt = time.Now()`. -/
def markActive (sb : Sandbox) (now : Nat) : Sandbox :=
  { sb with status := .active, lastActiveAt := now }

/-- Errors surfaced by `Pool.Acquire`. -/
inductive AcquireErr
  | poolClosed
  | poolExhausted
  | provisionFailed
deriving DecidableEq, Repr

/-- `Pool.Acquire` as one function.  The runtime call `runtime.Create`
is abstracted by `createRes`; the two lock-protected sections around it
are composed (the intermediate `creating`-incremented state appears in
the step relation `PoolStep` below, which is what the interleaving
invariant is proved over).  Control flow follows pool.go lines 83-133:
closed check, LIFO pop from idle, capacity check, create. -/
def poolAcquire (cfg : PoolConfig) (createRes : Except Unit Sandbox) (now : Nat)
    (st : PoolState) : Except AcquireErr (Sandbox × PoolState) :=
  if st.closed then .error .poolClosed
  else if h : st.idle ≠ [] then
    let sb := st.idle.getLast h
    let sb' := markActive sb now
    .ok (sb', { st with idle := st.idle.dropLast, active := (sb.sbId, sb') :: st.active })
  else if cfg.maxSize ≤ st.active.length + st.idle.length + st.creating then
    .error .poolExhausted
  else
    match createRes with
    | .error _ => .error .provisionFailed
    | .ok sb =>
      let sb' := { sb with status := SbStatus.active }
      .ok (sb', { st with active := (sb.sbId, sb') :: st.active })

/-- `Pool.Release` (pool.go lines 136-165).  Returns the new state and
whether the sandbox was pooled (`true`) or handed to the asynchronous
destroy (`false`); an unknown id is an error. -/
def poolRelease (cfg : PoolConfig) (now : Nat) (st : PoolState) (id : String) :
    Except Unit (PoolState × Bool) :=
  match activeLookup st.active id with
  | none => .error ()
  | some sb =>
    let st1 := { st with active := activeRemove st.active id }
    if st1.idle.length < cfg.maxSize ∧ st1.closed = false then
      .ok ({ st1 with idle := st1.idle ++ [{ sb with status := .idle, lastActiveAt := now }] }, true)
    else
      .ok (st1, false)

/-- One pass of the idle-eviction scan in `Pool.cleanup` (pool.go lines
310-326): walk the idle list from the oldest end, collecting timed-out
entries into the destroy set, but stop as soon as
`len(idle) − len(toRemove) ≤ MinSize`.  `total` is the (constant) length
of the original idle list, `removed` the number marked so far.  Returns
(kept, toDestroy). -/
def cleanupIdleAux (cfg : PoolConfig) (now : Nat) (total : Nat) :
    List Sandbox → Nat → List Sandbox × List Sandbox
  | [], _ => ([], [])
  | sb :: rest, removed =>
    if cfg.idleTimeout < now - sb.lastActiveAt then
      if total - removed ≤ cfg.minSize then (sb :: rest, [])
      else
        let r := cleanupIdleAux cfg now total rest (removed + 1)
        (r.1, sb :: r.2)
    else
      let r := cleanupIdleAux cfg now total rest removed
      (sb :: r.1, r.2)

/-- The bookkeeping part of `Pool.cleanup` (pool.go lines 302-337): evict
timed-out idle sandboxes down to `MinSize`, and detach active sandboxes
stuck for more than `2·IdleTimeout`.  The detached sandboxes are
destroyed outside the lock (no pool-state effect). -/
def poolCleanup (cfg : PoolConfig) (now : Nat) (st : PoolState) : PoolState :=
  { st with
    idle := (cleanupIdleAux cfg now st.idle.length st.idle 0).1,
    active := st.active.filter (fun p => decide (now - p.2.lastActiveAt ≤ cfg.idleTimeout * 2)) }

/-- The step relation over pool states: each constructor is one
lock-protected critical section of pool.go, so an arbitrary interleaving
of concurrent `Acquire` / `Release` / `Destroy` / warmup / cleanup /
`Close` calls is a path in this relation.  `Acquire`'s slow path and
each warmup creator appear as separate begin/finish steps, because the
Go code drops the lock around `runtime.Create` while holding a
`creating` slot. -/
inductive PoolStep (cfg : PoolConfig) : PoolState → PoolState → Prop
  /-- Acquire, idle pool non-empty: pop last, insert into active
  (pool.go lines 92-103). -/
  | acquireIdle (st : PoolState) (sb : Sandbox) (rest : List Sandbox) (now : Nat)
      (hclosed : st.closed = false) (hidle : st.idle = rest ++ [sb]) :
      PoolStep cfg st
        { st with idle := rest, active := (sb.sbId, markActive sb now) :: st.active }
  /-- Acquire, slow path, first critical section: claim a `creating`
  slot after the capacity check (pool.go lines 105-113). -/
  | acquireBegin (st : PoolState)
      (hclosed : st.closed = false) (hidle : st.idle = [])
      (hcap : st.active.length + st.idle.length + st.creating < cfg.maxSize) :
      PoolStep cfg st { st with creating := st.creating + 1 }
  /-- Acquire, slow path, `runtime.Create` succeeded: release the slot
  and insert into active (pool.go lines 124-129). -/
  | acquireCreateOk (st : PoolState) (sb : Sandbox) (hc : 0 < st.creating) :
      PoolStep cfg st
        { st with creating := st.creating - 1,
                  active := (sb.sbId, { sb with status := SbStatus.active }) :: st.active }
  /-- Acquire, slow path, `runtime.Create` failed: restore the counter
  (pool.go lines 117-121). -/
  | acquireCreateFail (st : PoolState) (hc : 0 < st.creating) :
      PoolStep cfg st { st with creating := st.creating - 1 }
  /-- Release, pooled branch (pool.go lines 140-154). -/
  | releaseIdle (st : PoolState) (id : String) (sb : Sandbox) (now : Nat)
      (hmem : activeLookup st.active id = some sb)
      (hcond : st.idle.length < cfg.maxSize ∧ st.closed = false) :
      PoolStep cfg st
        { st with active := activeRemove st.active id,
                  idle := st.idle ++ [{ sb with status := SbStatus.idle, lastActiveAt := now }] }
  /-- Release, overflow branch: remove from active, destroy runs on a
  detached goroutine (pool.go lines 156-164). -/
  | releaseDestroy (st : PoolState) (id : String) (sb : Sandbox)
      (hmem : activeLookup st.active id = some sb)
      (hcond : ¬ (st.idle.length < cfg.maxSize ∧ st.closed = false)) :
      PoolStep cfg st { st with active := activeRemove st.active id }
  /-- `Pool.Destroy` on an active sandbox (pool.go lines 171-176). -/
  | destroyActive (st : PoolState) (id : String) (sb : Sandbox)
      (hmem : activeLookup st.active id = some sb) :
      PoolStep cfg st { st with active := activeRemove st.active id }
  /-- `Pool.Destroy` on an idle sandbox: remove the first entry with a
  matching id (pool.go lines 178-185). -/
  | destroyIdle (st : PoolState) (id : String) (sb : Sandbox)
      (pre post : List Sandbox)
      (hidle : st.idle = pre ++ sb :: post) (hid : sb.sbId = id)
      (hfirst : ∀ x ∈ pre, x.sbId ≠ id) :
      PoolStep cfg st { st with idle := pre ++ post }
  /-- A warmup creator claims a `creating` slot after re-checking
  capacity under the lock (pool.go lines 253-259). -/
  | warmupBegin (st : PoolState)
      (hcap : st.idle.length + st.active.length + st.creating < cfg.maxSize) :
      PoolStep cfg st { st with creating := st.creating + 1 }
  /-- A warmup create succeeded: release the slot, push onto idle
  (pool.go lines 273-276). -/
  | warmupCreateOk (st : PoolState) (sb : Sandbox) (hc : 0 < st.creating) :
      PoolStep cfg st { st with creating := st.creating - 1, idle := st.idle ++ [sb] }
  /-- A warmup create failed: restore the counter (pool.go lines 266-270). -/
  | warmupCreateFail (st : PoolState) (hc : 0 < st.creating) :
      PoolStep cfg st { st with creating := st.creating - 1 }
  /-- One tick of the cleanup loop (pool.go lines 302-337). -/
  | cleanupTick (st : PoolState) (now : Nat) :
      PoolStep cfg st (poolCleanup cfg now st)
  /-- `Pool.Close` (pool.go lines 350-366): flip the flag and drain both
  collections; the grabbed sandboxes are destroyed outside the lock. -/
  | closePool (st : PoolState) (hopen : st.closed = false) :
      PoolStep cfg st { st with closed := true, idle := [], active := [] }

/-- Reachability of a pool state from the freshly constructed pool. -/
def PoolReachable (cfg : PoolConfig) (st : PoolState) : Prop :=
  Relation.ReflTransGen (PoolStep cfg) poolInit st

/-! ## Session data model (src/unnamed/part_001, types section) -/

/-- Session status constants. -/
inductive SessionStatus
  | active
  | paused
  | expired
deriving DecidableEq, Repr

/-- The `Session` record as persisted by the manager (the opaque
`Metadata` map is not consulted by any property here and is omitted). -/
structure Session where
  sid : String
  userId : String
  sandboxId : String
  status : SessionStatus
  workspaceUrl : String
  image : String
  cpuCount : Nat
  memoryMB : Nat
  createdAt : Nat
  updatedAt : Nat
  lastActiveAt : Nat
  expiresAt : Nat
  pausedAt : Option Nat
deriving DecidableEq, Repr

/-- `Session.IsExpired`: `time.Now().After(s.ExpiresAt)`, i.e.
`expiresAt < now`. -/
def Session.isExpired (s : Session) (now : Nat) : Bool :=
  decide (s.expiresAt < now)

/-- `CreateSessionRequest`. -/
structure CreateSessionRequest where
  userId : String
  image : String
  cpuCount : Nat
  memoryMB : Nat
  ttl : Nat
deriving DecidableEq, Repr

/-- `ManagerConfig`: the TTL parameters of `DefaultManager`. -/
structure ManagerConfig where
  defaultTTL : Nat
  maxTTL : Nat
deriving DecidableEq, Repr

/-- A string-keyed map, used for both the durable store and the cache. -/
def SMap : Type := String → Option Session

/-- Map update. -/
def SMap.set (m : SMap) (k : String) (v : Session) : SMap :=
  fun x => if x = k then some v else m x

/-- The empty map. -/
def SMap.empty : SMap := fun _ => none

/-- The manager-visible persistent state: the durable store and the
cache, both keyed by session id.  The cache models the non-nil
`m.cache` branch of the Go code; cache-entry eviction by Redis TTL is
external, so claims about cache contents quantify over arbitrary cache
states. -/
structure MState where
  store : SMap
  cache : SMap

/-- The state a fresh deployment starts from: both maps empty. -/
def mInit : MState := { store := SMap.empty, cache := SMap.empty }

/-- Errors surfaced by `DefaultManager.Get`. -/
inductive GetErr
  | notFound
  | expired
deriving DecidableEq, Repr

/-- `DefaultManager.Get` (part_001 lines 119-147): cache first (a hit is
returned as-is); on miss read the store, fail `notFound` if absent,
fail `expired` if `IsExpired`, and refresh the cache when
`time.Until(ExpiresAt) > 0`.  Returns the possibly-updated state
together with the result, mirroring the fact that the Go cache write
happens whether or not the enclosing operation later fails. -/
def mgrGet (now : Nat) (st : MState) (id : String) : MState × Except GetErr Session :=
  match st.cache id with
  | some s => (st, .ok s)
  | none =>
    match st.store id with
    | none => (st, .error .notFound)
    | some s =>
      if s.isExpired now then (st, .error .expired)
      else if now < s.expiresAt then
        ({ st with cache := st.cache.set id s }, .ok s)
      else (st, .ok s)

/-- `DefaultManager.Update` (part_001 lines 168-184): stamp
`updatedAt = now`, write the store, and refresh the cache when
`time.Until(ExpiresAt) > 0`. -/
def mgrUpdate (now : Nat) (st : MState) (s : Session) : MState :=
  let s1 := { s with updatedAt := now }
  let st1 := { st with store := st.store.set s1.sid s1 }
  if now < s1.expiresAt then { st1 with cache := st1.cache.set s1.sid s1 } else st1

/-- `DefaultManager.Create` (part_001 lines 65-116): default the TTL
when zero, cap it at `maxTTL`, default image/cpu/memory, build the
session with `expiresAt = now + ttl`, write the store and the cache. -/
def mgrCreate (cfg : ManagerConfig) (now : Nat) (newId : String)
    (req : CreateSessionRequest) (st : MState) : MState × Session :=
  let ttl0 := if req.ttl = 0 then cfg.defaultTTL else req.ttl
  let ttl := if cfg.maxTTL < ttl0 then cfg.maxTTL else ttl0
  let image := if req.image = "" then "python:3.11-slim" else req.image
  let cpu := if req.cpuCount = 0 then 2 else req.cpuCount
  let mem := if req.memoryMB = 0 then 2048 else req.memoryMB
  let s : Session :=
    { sid := newId, userId := req.userId, sandboxId := "", status := .active,
      workspaceUrl := "", image := image, cpuCount := cpu, memoryMB := mem,
      createdAt := now, updatedAt := now, lastActiveAt := now,
      expiresAt := now + ttl, pausedAt := none }
  ({ store := st.store.set newId s, cache := st.cache.set newId s }, s)

/-- Errors surfaced by `DefaultManager.Pause`.  The Go code returns
untyped `fmt.Errorf` values; `notActive` and `noSandboxBound` are the
two messages the specification's taxonomy classifies as
`InvalidState`. -/
inductive PauseErr
  | getFailed (e : GetErr)
  | notActive
  | noSandboxBound
  | saveFailed
deriving DecidableEq, Repr

/-- `DefaultManager.Pause` (part_001 lines 212-247): `Get`, require
status active, require a bound sandbox, `workspaceStorage.Save`
(abstracted by `saveRes`; on success it yields the archive key), then
set `workspaceUrl`, status paused, `pausedAt = now`, clear the sandbox
binding, and persist via `Update`. -/
def mgrPause (now : Nat) (saveRes : Except Unit String) (st : MState) (id : String) :
    MState × Except PauseErr Unit :=
  match mgrGet now st id with
  | (st1, .error e) => (st1, .error (.getFailed e))
  | (st1, .ok s) =>
    if s.status ≠ SessionStatus.active then (st1, .error .notActive)
    else if s.sandboxId = "" then (st1, .error .noSandboxBound)
    else
      match saveRes with
      | .error _ => (st1, .error .saveFailed)
      | .ok url =>
        let s1 := { s with workspaceUrl := url, status := SessionStatus.paused,
                           pausedAt := some now, sandboxId := "" }
        (mgrUpdate now st1 s1, .ok ())

/-- Errors surfaced by `DefaultManager.Resume`. -/
inductive ResumeErr
  | getFailed (e : GetErr)
  | notPaused
deriving DecidableEq, Repr

/-- `DefaultManager.Resume` (part_001 lines 250-275): `Get`, require
status paused, then set status active, clear `pausedAt`, refresh
`lastActiveAt` and extend `expiresAt` by `defaultTTL`; persist via
`Update`. -/
def mgrResume (cfg : ManagerConfig) (now : Nat) (st : MState) (id : String) :
    MState × Except ResumeErr Session :=
  match mgrGet now st id with
  | (st1, .error e) => (st1, .error (.getFailed e))
  | (st1, .ok s) =>
    if s.status ≠ SessionStatus.paused then (st1, .error .notPaused)
    else
      let s1 := { s with status := SessionStatus.active, pausedAt := none,
                         lastActiveAt := now, expiresAt := now + cfg.defaultTTL }
      (mgrUpdate now st1 s1, .ok s1)

/-- `DefaultManager.BindSandbox` (part_001 lines 356-371): `Get`, set
the binding and `lastActiveAt`, persist via `Update`.  There is no
status precondition. -/
def mgrBindSandbox (now : Nat) (st : MState) (sessionId sandboxId : String) :
    MState × Except GetErr Unit :=
  match mgrGet now st sessionId with
  | (st1, .error e) => (st1, .error e)
  | (st1, .ok s) =>
    let s1 := { s with sandboxId := sandboxId, lastActiveAt := now }
    (mgrUpdate now st1 s1, .ok ())

/-- `DefaultManager.UnbindSandbox` (part_001 lines 374-388): `Get`,
clear the binding, persist via `Update`. -/
def mgrUnbindSandbox (now : Nat) (st : MState) (sessionId : String) :
    MState × Except GetErr Unit :=
  match mgrGet now st sessionId with
  | (st1, .error e) => (st1, .error e)
  | (st1, .ok s) =>
    let s1 := { s with sandboxId := "" }
    (mgrUpdate now st1 s1, .ok ())

/-- `DefaultManager.Touch` (part_001 lines 302-323): `Get`, refresh
`lastActiveAt`, write the store directly (`m.store.Update`, not
`m.Update`, so `updatedAt` is untouched); the cache call only refreshes
the entry's TTL, which the map model does not track. -/
def mgrTouch (now : Nat) (st : MState) (id : String) : MState × Except GetErr Unit :=
  match mgrGet now st id with
  | (st1, .error e) => (st1, .error e)
  | (st1, .ok s) =>
    let s1 := { s with lastActiveAt := now }
    ({ st1 with store := st1.store.set id s1 }, .ok ())

/-- The session-manager step relation used for the paused-session
invariant: one constructor per operation of the amended claim, each
quantified over its clock, identifiers and external outcomes. -/
inductive MgrStep (cfg : ManagerConfig) : MState → MState → Prop
  | create (st : MState) (now : Nat) (newId : String) (req : CreateSessionRequest) :
      MgrStep cfg st (mgrCreate cfg now newId req st).1
  | get (st : MState) (now : Nat) (id : String) :
      MgrStep cfg st (mgrGet now st id).1
  | pause (st : MState) (now : Nat) (saveRes : Except Unit String) (id : String) :
      MgrStep cfg st (mgrPause now saveRes st id).1
  | resume (st : MState) (now : Nat) (id : String) :
      MgrStep cfg st (mgrResume cfg now st id).1
  | unbind (st : MState) (now : Nat) (id : String) :
      MgrStep cfg st (mgrUnbindSandbox now st id).1
  | touch (st : MState) (now : Nat) (id : String) :
      MgrStep cfg st (mgrTouch now st id).1

/-- Reachability of a manager state from an empty deployment. -/
def MgrReachable (cfg : ManagerConfig) (st : MState) : Prop :=
  Relation.ReflTransGen (MgrStep cfg) mInit st

/-- The paused-session property of one record: a paused session has no
sandbox bound and carries a pause timestamp. -/
def sessionOk (s : Session) : Prop :=
  s.status = SessionStatus.paused → s.sandboxId = "" ∧ s.pausedAt ≠ none

/-- The paused-session invariant over one map. -/
def pausedInvMap (m : SMap) : Prop :=
  ∀ id s, m id = some s → sessionOk s

/-- The invariant over the whole manager state (store and cache). -/
def pausedInv (st : MState) : Prop :=
  pausedInvMap st.store ∧ pausedInvMap st.cache

/-! ## Docker runtime model (src/internal/sandbox/docker.go)

The runtime keeps one record per sandbox in `r.sandboxes`; the pool's
collections hold pointers into the same records, so a status written
here is the status every holder of the handle reads. -/

/-- The runtime's in-process map `r.sandboxes`. -/
structure DockerState where
  sandboxes : String → Option Sandbox

/-- Insert/overwrite one record in the runtime map. -/
def DockerState.set (st : DockerState) (id : String) (sb : Sandbox) : DockerState :=
  { sandboxes := fun x => if x = id then some sb else st.sandboxes x }

/-- Delete one record from the runtime map (`delete(r.sandboxes, id)`). -/
def DockerState.del (st : DockerState) (id : String) : DockerState :=
  { sandboxes := fun x => if x = id then none else st.sandboxes x }

/-- `DockerRuntime.Get` (docker.go lines 230-240): map lookup; a missing
id is an error. -/
def dockerGet (st : DockerState) (id : String) : Except String Sandbox :=
  match st.sandboxes id with
  | none => .error ("sandbox not found: " ++ id)
  | some sb => .ok sb

/-- `DockerRuntime.Destroy` (docker.go lines 209-227): `Get`, then
`ContainerRemove` (abstracted by `removeRes`), then delete from the map.
A failed `Get` or a failed remove leaves the map untouched and surfaces
an error. -/
def dockerDestroy (removeRes : Except Unit Unit) (st : DockerState) (id : String) :
    DockerState × Except String Unit :=
  match dockerGet st id with
  | .error e => (st, .error e)
  | .ok _ =>
    match removeRes with
    | .error _ => (st, .error "failed to remove container")
    | .ok _ => (st.del id, .ok ())

/-- `limitedWriter` (docker.go lines 579-583): the underlying
`bytes.Buffer` is carried as `buf` (a byte string, modelled as a char
list); `limit` and `written` as in the struct. -/
structure LimitedWriter where
  buf : List Char
  limit : Nat
  written : Nat
deriving DecidableEq, Repr

/-- A fresh `limitedWriter` over an empty buffer. -/
def LimitedWriter.new (limit : Nat) : LimitedWriter :=
  { buf := [], limit := limit, written := 0 }

/-- `limitedWriter.Write` (docker.go lines 585-598): once `written ≥
limit`, report full success while discarding; otherwise truncate the
chunk to the remaining budget and append it.  `bytes.Buffer.Write`
always succeeds with `n = len(p)`, so the returned count is the only
outcome. -/
def LimitedWriter.write (lw : LimitedWriter) (p : List Char) : LimitedWriter × Nat :=
  if lw.limit ≤ lw.written then (lw, p.length)
  else
    let remaining := lw.limit - lw.written
    let q := if remaining < p.length then p.take remaining else p
    ({ lw with buf := lw.buf ++ q, written := lw.written + q.length }, q.length)

/-- The demultiplexing loop of `stdcopy.StdCopy` as driven by Exec
(docker.go lines 340-347): each frame is tagged stderr/stdout and
written to the corresponding `limitedWriter`; a short write makes
`StdCopy` return `ErrShortWrite` immediately (Exec reads that error
from `outputDone` and ignores it). -/
def stdCopyLoop (outW errW : LimitedWriter) :
    List (Bool × List Char) → LimitedWriter × LimitedWriter
  | [] => (outW, errW)
  | (isErr, chunk) :: rest =>
    if isErr then
      let r := errW.write chunk
      if r.2 ≠ chunk.length then (outW, r.1)
      else stdCopyLoop outW r.1 rest
    else
      let r := outW.write chunk
      if r.2 ≠ chunk.length then (r.1, errW)
      else stdCopyLoop r.1 errW rest

/-- Output capture of one Exec: both streams start empty with the
configured cap (`r.config.MaxOutputSize`). -/
def stdCopyCapture (limit : Nat) (frames : List (Bool × List Char)) :
    LimitedWriter × LimitedWriter :=
  stdCopyLoop (LimitedWriter.new limit) (LimitedWriter.new limit) frames

/-- `escapeShell` (docker.go lines 574-576). -/
def escapeShell (s : String) : String :=
  s.replace "'" "'\"'\"'"

/-- `DockerRuntime.buildCommand` (docker.go lines 493-510). -/
def buildCommand (language code : String) : List String :=
  match language.toLower with
  | "python" => ["python3", "-c", code]
  | "python3" => ["python3", "-c", code]
  | "node" => ["node", "-e", code]
  | "javascript" => ["node", "-e", code]
  | "js" => ["node", "-e", code]
  | "bash" => ["bash", "-c", code]
  | "sh" => ["bash", "-c", code]
  | "shell" => ["bash", "-c", code]
  | "ruby" => ["ruby", "-e", code]
  | "go" =>
      ["bash", "-c", "echo '" ++ escapeShell code ++ "' > /tmp/main.go && go run /tmp/main.go"]
  | "golang" =>
      ["bash", "-c", "echo '" ++ escapeShell code ++ "' > /tmp/main.go && go run /tmp/main.go"]
  | _ => ["bash", "-c", code]

/-- `ExecRequest`: code, language, explicit argv, working directory and
per-call timeout (stdin and env are opaque to the properties proved
here). -/
structure ExecRequest where
  code : String
  language : String
  command : List String
  workDir : String
  timeout : Nat
deriving DecidableEq, Repr

/-- `ExecResult` (the `Error` field is only ever populated by the HTTP
handlers above the runtime; `DockerRuntime.Exec` leaves it empty). -/
structure ExecResult where
  exitCode : Int
  stdout : String
  stderr : String
  duration : Nat
  timedOut : Bool
  errMsg : String
deriving DecidableEq, Repr

/-- The sandbox `Config` fields Exec consults. -/
structure RuntimeConfig where
  maxExecutionTime : Nat
  maxOutputSize : Nat
  workDir : String
deriving DecidableEq, Repr

/-- The outcomes of the Docker backend calls one Exec performs, plus the
clock readings, all external to the embedded control flow:
`execCreateOk`/`attachOk` for `ContainerExecCreate`/`ContainerExecAttach`,
`inspectExit` for `ContainerExecInspect` (`none` = inspect error),
`frames` for the multiplexed output stream, `ctxTimedOut` for whether
the derived deadline context fired before the output copy finished. -/
structure ExecEnv where
  now : Nat
  execCreateOk : Bool
  attachOk : Bool
  inspectExit : Option Int
  frames : List (Bool × List Char)
  ctxTimedOut : Bool
  duration : Nat

/-- `DockerRuntime.Exec` (docker.go lines 256-372).  On entry the
sandbox record is set to `active` with a fresh `lastActiveAt`; the
deferred function resets the status to `idle` on every return after
that point (including the error returns).  The body builds the command,
captures output through the two `limitedWriter`s, and assembles the
`ExecResult`; `TimedOut` is whether the deadline context fired first. -/
def dockerExec (cfg : RuntimeConfig) (env : ExecEnv) (st : DockerState)
    (id : String) (req : ExecRequest) : DockerState × Except String ExecResult :=
  match dockerGet st id with
  | .error e => (st, .error e)
  | .ok sb =>
    let sbActive := { sb with status := SbStatus.active, lastActiveAt := env.now }
    let stEntry := st.set id sbActive
    let stExit := stEntry.set id { sbActive with status := SbStatus.idle }
    let _cmd := if req.command ≠ [] then req.command else buildCommand req.language req.code
    let _timeout := if req.timeout = 0 then cfg.maxExecutionTime else req.timeout
    let _workDir := if req.workDir = "" then cfg.workDir else req.workDir
    if env.execCreateOk = false then (stExit, .error "failed to create exec")
    else if env.attachOk = false then (stExit, .error "failed to attach to exec")
    else
      let captured := stdCopyCapture cfg.maxOutputSize env.frames
      match env.inspectExit with
      | none => (stExit, .error "failed to inspect exec")
      | some code =>
        (stExit, .ok { exitCode := code, stdout := String.mk captured.1.buf,
                       stderr := String.mk captured.2.buf, duration := env.duration,
                       timedOut := env.ctxTimedOut, errMsg := "" })

/-- The state of the sandbox record after Exec's entry bookkeeping
(docker.go lines 262-266), factored out so the entry effect is
statable on its own. -/
def execEntryState (st : DockerState) (id : String) (now : Nat) : DockerState :=
  match st.sandboxes id with
  | none => st
  | some sb => st.set id { sb with status := SbStatus.active, lastActiveAt := now }

/-! ## ls parsing (src/internal/sandbox/helpers.go) and ListFiles -/

/-- `FileInfo` as returned by `ListFiles`. -/
structure FileInfo where
  name : String
  path : String
  size : Int
  isDir : Bool
  modTime : Nat
deriving DecidableEq, Repr

/-- `strings.Split(output, "\x5cn")` over the byte string (modelled on
char lists, since the properties here are settled by evaluation). -/
def splitLines : List Char → List (List Char)
  | [] => [[]]
  | c :: rest =>
    if c = '\n' then [] :: splitLines rest
    else
      match splitLines rest with
      | [] => [[c]]
      | line :: more => (c :: line) :: more

/-- `strings.HasPrefix`. -/
def hasPrefixL : List Char → List Char → Bool
  | _, [] => true
  | [], _ :: _ => false
  | c :: rest, p :: ps => c = p && hasPrefixL rest ps

/-- `strings.TrimSpace` (the whitespace classes appearing in `ls`
output). -/
def trimSpaceL (l : List Char) : List Char :=
  ((l.dropWhile Char.isWhitespace).reverse.dropWhile Char.isWhitespace).reverse

/-- Accumulating scanner for `strings.Fields`. -/
def fieldsAux (acc : List Char) : List Char → List (List Char)
  | [] => if acc = [] then [] else [acc.reverse]
  | c :: rest =>
    if c.isWhitespace then
      if acc = [] then fieldsAux [] rest
      else acc.reverse :: fieldsAux [] rest
    else fieldsAux (c :: acc) rest

/-- `strings.Fields`: split on whitespace runs. -/
def fieldsL (l : List Char) : List (List Char) :=
  fieldsAux [] l

/-- Decimal digit accumulation; `none` on a non-digit, as
`strconv.ParseInt` rejects the string. -/
def digitsVal (acc : Nat) : List Char → Option Nat
  | [] => some acc
  | c :: rest =>
    if c.isDigit then digitsVal (acc * 10 + (c.toNat - '0'.toNat)) rest else none

/-- Go `strconv.ParseInt(s, 10, 64)` with the error ignored, as
helpers.go line 115 does for the size column: a malformed or empty
field yields 0. -/
def parseSizeL (l : List Char) : Int :=
  match l with
  | [] => 0
  | '-' :: rest =>
    if rest = [] then 0
    else
      match digitsVal 0 rest with
      | some n => -(n : Int)
      | none => 0
  | _ =>
    match digitsVal 0 l with
    | some n => (n : Int)
    | none => 0

/-- Model of Go `filepath.Join(base, name)` for the directory/name
pairs produced here (the additional path cleaning Join performs does
not arise for these inputs). -/
def joinPathL (base name : List Char) : String :=
  if base = [] then String.mk name
  else if base.getLast? = some '/' then String.mk (base ++ name)
  else String.mk (base ++ '/' :: name)

/-- One line of `parseLsOutput` (helpers.go lines 89-127): trim, skip
blank and `total` lines, require at least 8 fields, take the last field
as the name, skip `.` and `..`, read the directory bit from the
permission column and the size from column 4 (parse failures yield 0,
as the Go code ignores the `ParseInt` error), and stamp `modTime` with
the current wall-clock time `now` — the date columns of the line are
never consulted. -/
def parseLsLine (now : Nat) (basePath : List Char) (line0 : List Char) : Option FileInfo :=
  let line := trimSpaceL line0
  if line = [] then none
  else if hasPrefixL line ['t', 'o', 't', 'a', 'l'] then none
  else
    let fields := fieldsL line
    if fields.length < 8 then none
    else
      let name := (fields.getLast?).getD []
      if name = ['.'] ∨ name = ['.', '.'] then none
      else
        let perms := fields.headD []
        some { name := String.mk name, path := joinPathL basePath name,
               size := parseSizeL (fields.getD 4 []),
               isDir := hasPrefixL perms ['d'], modTime := now }

/-- `parseLsOutput` (helpers.go lines 85-131): split on newlines and
parse each line. -/
def parseLsOutput (now : Nat) (output basePath : String) : List FileInfo :=
  (splitLines output.data).filterMap (parseLsLine now basePath.data)

/-- `DockerRuntime.ListFiles` (docker.go lines 440-454): exec
`ls -la path`, fail on exec error or non-zero exit, otherwise parse the
captured stdout at wall-clock instant `parseNow`. -/
def dockerListFiles (cfg : RuntimeConfig) (env : ExecEnv) (parseNow : Nat)
    (st : DockerState) (id : String) (path : String) :
    DockerState × Except String (List FileInfo) :=
  match dockerExec cfg env st id
      { code := "", language := "", command := ["ls", "-la", path],
        workDir := "", timeout := 0 } with
  | (st1, .error e) => (st1, .error e)
  | (st1, .ok res) =>
    if res.exitCode ≠ 0 then (st1, .error ("failed to list files: " ++ res.stderr))
    else (st1, .ok (parseLsOutput parseNow res.stdout path))

/-! ## Concrete states used by witnesses and counterexamples -/

/-- A session whose TTL lapsed at instant 5. -/
def cSessionExp : Session :=
  { sid := "x", userId := "u", sandboxId := "", status := .active, workspaceUrl := "",
    image := "python:3.11-slim", cpuCount := 2, memoryMB := 2048, createdAt := 0,
    updatedAt := 0, lastActiveAt := 0, expiresAt := 5, pausedAt := none }

/-- Manager state holding the lapsed session in both the store and the
cache (the cache entry's Redis TTL has not fired yet). -/
def cStateCached : MState :=
  { store := SMap.empty.set "x" cSessionExp, cache := SMap.empty.set "x" cSessionExp }

/-- Manager state holding the lapsed session only in the store. -/
def cStateStoreOnly : MState :=
  { store := SMap.empty.set "x" cSessionExp, cache := SMap.empty }

/-- An active session with a sandbox bound. -/
def cSessionBound : Session :=
  { sid := "p1", userId := "u", sandboxId := "sbx", status := .active, workspaceUrl := "",
    image := "python:3.11-slim", cpuCount := 2, memoryMB := 2048, createdAt := 0,
    updatedAt := 0, lastActiveAt := 0, expiresAt := 100, pausedAt := none }

/-- Manager state holding the bound session in the store. -/
def cStateBound : MState :=
  { store := SMap.empty.set "p1" cSessionBound, cache := SMap.empty }

/-- A paused session with no sandbox bound and a pause timestamp. -/
def cSessionPaused : Session :=
  { sid := "q1", userId := "u", sandboxId := "", status := .paused,
    workspaceUrl := "workspaces/q1/workspace.tar.gz", image := "python:3.11-slim",
    cpuCount := 2, memoryMB := 2048, createdAt := 0, updatedAt := 2, lastActiveAt := 1,
    expiresAt := 100, pausedAt := some 2 }

/-- Manager state holding the paused session in store and cache. -/
def cStatePaused : MState :=
  { store := SMap.empty.set "q1" cSessionPaused,
    cache := SMap.empty.set "q1" cSessionPaused }

/-- Configuration for the bind-after-pause run. -/
def c4Cfg : ManagerConfig := { defaultTTL := 100, maxTTL := 1000 }

/-- Request for the bind-after-pause run. -/
def c4Req : CreateSessionRequest :=
  { userId := "u", image := "", cpuCount := 0, memoryMB := 0, ttl := 50 }

/-- State after `Create` at instant 0. -/
def c4State1 : MState := (mgrCreate c4Cfg 0 "s1" c4Req mInit).1

/-- State after `BindSandbox("s1", "sb1")` at instant 1. -/
def c4State2 : MState := (mgrBindSandbox 1 c4State1 "s1" "sb1").1

/-- State after a successful `Pause` at instant 2. -/
def c4State3 : MState :=
  (mgrPause 2 (Except.ok "workspaces/s1/workspace.tar.gz") c4State2 "s1").1

/-- State after `BindSandbox("s1", "sb2")` at instant 3, while the
session is paused. -/
def c4State4 : MState := (mgrBindSandbox 3 c4State3 "s1" "sb2").1

/-- Two idle sandboxes for the pool LIFO witness. -/
def cIdleSb1 : Sandbox :=
  { sbId := "w1", status := .idle, containerId := "c1", image := "alpine:latest",
    ip := "", createdAt := 0, lastActiveAt := 0, labels := [] }

/-- Second idle sandbox (released more recently than `cIdleSb1`). -/
def cIdleSb2 : Sandbox :=
  { sbId := "w2", status := .idle, containerId := "c2", image := "alpine:latest",
    ip := "", createdAt := 0, lastActiveAt := 1, labels := [] }

/-- A pool state with two warm idle sandboxes. -/
def cPoolState : PoolState :=
  { idle := [cIdleSb1, cIdleSb2], active := [], creating := 0, closed := false }

/-- A sandbox registered with the Docker runtime. -/
def cSandboxA : Sandbox :=
  { sbId := "a", status := .idle, containerId := "cont-a", image := "alpine:latest",
    ip := "", createdAt := 0, lastActiveAt := 0, labels := [] }

/-- Runtime state holding just `cSandboxA`. -/
def cDockerState : DockerState :=
  { sandboxes := fun x => if x = "a" then some cSandboxA else none }

/-- A runtime configuration with a generous output cap. -/
def cRuntimeConfig : RuntimeConfig :=
  { maxExecutionTime := 300, maxOutputSize := 10000, workDir := "/workspace" }

/-- A runtime configuration whose output cap is 3 bytes. -/
def c8Cfg : RuntimeConfig :=
  { maxExecutionTime := 300, maxOutputSize := 3, workDir := "/workspace" }

/-- Backend outcomes for an exec that writes 5 bytes to stdout and 6 to
stderr. -/
def c8Env : ExecEnv :=
  { now := 1, execCreateOk := true, attachOk := true, inspectExit := some 0,
    frames := [(false, "hello".data), (true, "worlds".data)], ctxTimedOut := false,
    duration := 2 }

/-- An exec request carrying a code snippet. -/
def cReqEcho : ExecRequest :=
  { code := "print(1)", language := "python", command := [], workDir := "", timeout := 0 }

/-- Backend outcomes for a small successful exec. -/
def cExecEnv : ExecEnv :=
  { now := 9, execCreateOk := true, attachOk := true, inspectExit := some 0,
    frames := [(false, "hi".data)], ctxTimedOut := false, duration := 3 }

/-- The `ls -la` output used by the ListFiles witness. -/
def cLsOut : String := "total 8\n-rw-r--r-- 1 root root 1234 Jan 15 10:30 hello.txt"

/-- Backend outcomes for the ListFiles witness: the exec succeeds and
its stdout is `cLsOut`. -/
def cExecEnvLs : ExecEnv :=
  { now := 9, execCreateOk := true, attachOk := true, inspectExit := some 0,
    frames := [(false, cLsOut.data)], ctxTimedOut := false, duration := 3 }

/-! # Theorems

First the helper lemmas, then one theorem per claim (with its witness or
counterexample). -/

/-! ## Pool lemmas -/

theorem cleanupIdleAux_length_le (cfg : PoolConfig) (now total : Nat) :
    ∀ (l : List Sandbox) (removed : Nat),
      ((cleanupIdleAux cfg now total l removed).1).length ≤ l.length := by
  intro l
  induction l with
  | nil => intro removed; simp [cleanupIdleAux]
  | cons sb rest ih =>
    intro removed
    unfold cleanupIdleAux
    split
    · split
      · simp
      · simpa using Nat.le_succ_of_le (ih (removed + 1))
    · simpa using Nat.succ_le_succ (ih removed)

theorem activeRemove_length_le (l : List (String × Sandbox)) (id : String) :
    (activeRemove l id).length ≤ l.length :=
  List.length_filter_le _ _

theorem activeRemove_length_lt (l : List (String × Sandbox)) (id : String) (sb : Sandbox)
    (h : activeLookup l id = some sb) : (activeRemove l id).length < l.length := by
  induction l with
  | nil => simp [activeLookup] at h
  | cons p rest ih =>
    by_cases hp : p.1 == id
    · have : (activeRemove (p :: rest) id).length = (activeRemove rest id).length := by
        simp [activeRemove, List.filter, bne, hp]
      rw [this]
      exact Nat.lt_succ_of_le (activeRemove_length_le rest id)
    · have hmem : activeLookup rest id = some sb := by
        simpa [activeLookup, List.find?, hp] using h
      have : (activeRemove (p :: rest) id).length = (activeRemove rest id).length + 1 := by
        simp [activeRemove, List.filter, bne, hp]
      rw [this]
      exact Nat.succ_lt_succ (ih hmem)

theorem poolStep_total_le {cfg : PoolConfig} {st st' : PoolState}
    (h : PoolStep cfg st st') (hinv : totalCount st ≤ cfg.maxSize) :
    totalCount st' ≤ cfg.maxSize := by
  cases h with
  | acquireIdle sb rest now hclosed hidle =>
    simp only [totalCount] at hinv ⊢
    rw [hidle] at hinv
    simp only [List.length_append, List.length_cons, List.length_nil] at hinv ⊢
    omega
  | acquireBegin hclosed hidle hcap =>
    simp only [totalCount] at hinv hcap ⊢
    omega
  | acquireCreateOk sb hc =>
    simp only [totalCount, List.length_cons] at hinv ⊢
    omega
  | acquireCreateFail hc =>
    simp only [totalCount] at hinv ⊢
    omega
  | releaseIdle id sb now hmem hcond =>
    have hlt := activeRemove_length_lt st.active id sb hmem
    simp only [totalCount, List.length_append, List.length_cons, List.length_nil] at hinv ⊢
    omega
  | releaseDestroy id sb hmem hcond =>
    have hle := activeRemove_length_le st.active id
    simp only [totalCount] at hinv ⊢
    omega
  | destroyActive id sb hmem =>
    have hle := activeRemove_length_le st.active id
    simp only [totalCount] at hinv ⊢
    omega
  | destroyIdle id sb pre post hidle hid hfirst =>
    simp only [totalCount] at hinv ⊢
    rw [hidle] at hinv
    simp only [List.length_append, List.length_cons] at hinv ⊢
    omega
  | warmupBegin hcap =>
    simp only [totalCount] at hinv hcap ⊢
    omega
  | warmupCreateOk sb hc =>
    simp only [totalCount, List.length_append, List.length_cons, List.length_nil] at hinv ⊢
    omega
  | warmupCreateFail hc =>
    simp only [totalCount] at hinv ⊢
    omega
  | cleanupTick now =>
    have h1 := cleanupIdleAux_length_le cfg now st.idle.length st.idle 0
    have h2 := List.length_filter_le
      (fun p => decide (now - p.2.lastActiveAt ≤ cfg.idleTimeout * 2)) st.active
    simp only [totalCount, poolCleanup] at hinv ⊢
    omega
  | closePool hopen =>
    simp only [totalCount, List.length_nil] at hinv ⊢
    omega

/-- **C1.** For every pool state reachable by any interleaving of the
lock-protected critical sections of `Acquire`, `Release`, `Destroy`,
the warmup creators, the cleanup tick and `Close`, the sum of the
idle-list length, the active-map size and the `creating` counter never
exceeds `max_size`.  The `creating` slots are only claimable behind the
capacity checks carried by the `acquireBegin` and `warmupBegin` steps
(the latter being each warmup creator's re-check under the lock). -/
theorem pool_capacity_invariant (cfg : PoolConfig) (st : PoolState)
    (h : PoolReachable cfg st) :
    st.idle.length + st.active.length + st.creating ≤ cfg.maxSize := by
  have key : totalCount st ≤ cfg.maxSize := by
    induction h with
    | refl => simp [totalCount, poolInit]
    | tail _ hstep ih => exact poolStep_total_le hstep ih
  simp only [totalCount] at key
  omega

/-- Witness for C1 at a concrete reachable state: after one
`acquireBegin` step from the fresh pool, the bound holds for
`max_size = 5`. -/
theorem pool_capacity_invariant_witness :
    ({ idle := [], active := [], creating := 1, closed := false } : PoolState).idle.length +
      ({ idle := [], active := [], creating := 1, closed := false } : PoolState).active.length +
      ({ idle := [], active := [], creating := 1, closed := false } : PoolState).creating ≤
      ({ minSize := 2, maxSize := 5, warmupSize := 3, idleTimeout := 100 } : PoolConfig).maxSize := by
  refine pool_capacity_invariant
    { minSize := 2, maxSize := 5, warmupSize := 3, idleTimeout := 100 } _
    (Relation.ReflTransGen.single ?_)
  exact PoolStep.acquireBegin poolInit rfl rfl (by decide)

/-- **C7.** When the idle list is non-empty (and the pool is open),
`Acquire` pops the most recently released sandbox — the last element of
the idle list — removes it from the idle list and inserts it into the
active map marked `active`; the result does not depend on the runtime's
create outcome, so a freshly created sandbox is only ever returned when
the idle list is empty. -/
theorem acquire_lifo (cfg : PoolConfig) (createRes : Except Unit Sandbox) (now : Nat)
    (st : PoolState) (hclosed : st.closed = false) (hne : st.idle ≠ []) :
    poolAcquire cfg createRes now st =
      Except.ok (markActive (st.idle.getLast hne) now,
        { st with idle := st.idle.dropLast,
                  active := ((st.idle.getLast hne).sbId, markActive (st.idle.getLast hne) now)
                    :: st.active }) := by
  unfold poolAcquire
  rw [hclosed]
  simp [hne]

/-- Witness for C7: with two warm sandboxes the later-released `w2` is
handed out, even though a create outcome is available. -/
theorem acquire_lifo_witness :
    poolAcquire { minSize := 2, maxSize := 5, warmupSize := 3, idleTimeout := 100 }
        (Except.error ()) 7 cPoolState =
      Except.ok (markActive cIdleSb2 7,
        { cPoolState with idle := [cIdleSb1],
                          active := [("w2", markActive cIdleSb2 7)] }) := by
  have h := acquire_lifo { minSize := 2, maxSize := 5, warmupSize := 3, idleTimeout := 100 }
    (Except.error ()) 7 cPoolState rfl (by simp [cPoolState])
  simpa [cPoolState, cIdleSb1, cIdleSb2] using h

/-! ## Session-manager lemmas -/

theorem smap_set_inv {m : SMap} (hm : pausedInvMap m) {v : Session} (hv : sessionOk v)
    (k : String) : pausedInvMap (m.set k v) := by
  intro id s hs
  unfold SMap.set at hs
  by_cases hik : id = k
  · rw [if_pos hik] at hs
    cases hs
    exact hv
  · rw [if_neg hik] at hs
    exact hm id s hs

theorem sessionOk_of_active {s : Session} (h : s.status = SessionStatus.active) :
    sessionOk s := by
  intro habs
  rw [h] at habs
  cases habs

theorem mgrGet_inv (now : Nat) (st : MState) (id : String) (hinv : pausedInv st) :
    pausedInv (mgrGet now st id).1 ∧
      ∀ s, (mgrGet now st id).2 = Except.ok s → sessionOk s := by
  obtain ⟨hst, hca⟩ := hinv
  unfold mgrGet
  cases hc : st.cache id with
  | some s0 =>
    refine ⟨⟨hst, hca⟩, ?_⟩
    intro s hs
    cases hs
    exact hca id s0 hc
  | none =>
    cases hsid : st.store id with
    | none => exact ⟨⟨hst, hca⟩, fun s hs => by cases hs⟩
    | some s0 =>
      by_cases hexp : s0.isExpired now
      · simp only [hexp, if_true]
        exact ⟨⟨hst, hca⟩, fun s hs => by cases hs⟩
      · by_cases hlt : now < s0.expiresAt
        · simp only [hexp, hlt, if_true, if_false]
          refine ⟨⟨hst, smap_set_inv hca (hst id s0 hsid) id⟩, ?_⟩
          intro s hs
          cases hs
          exact hst id s0 hsid
        · simp only [hexp, hlt, if_false]
          refine ⟨⟨hst, hca⟩, ?_⟩
          intro s hs
          cases hs
          exact hst id s0 hsid

theorem mgrGet_store_eq (now : Nat) (st : MState) (id : String) :
    ((mgrGet now st id).1).store = st.store := by
  unfold mgrGet
  cases hc : st.cache id with
  | some s0 => rfl
  | none =>
    cases hsid : st.store id with
    | none => rfl
    | some s0 =>
      by_cases hexp : s0.isExpired now
      · simp [hexp]
      · by_cases hlt : now < s0.expiresAt
        · simp [hexp, hlt]
        · simp [hexp, hlt]

theorem mgrUpdate_inv (now : Nat) (st : MState) (s : Session)
    (hinv : pausedInv st) (hs : sessionOk s) : pausedInv (mgrUpdate now st s) := by
  obtain ⟨hst, hca⟩ := hinv
  have hs1 : sessionOk { s with updatedAt := now } := hs
  unfold mgrUpdate
  by_cases hlt : now < s.expiresAt
  · simp only [hlt, if_true]
    exact ⟨smap_set_inv hst hs1 _, smap_set_inv hca hs1 _⟩
  · simp only [hlt, if_false]
    exact ⟨smap_set_inv hst hs1 _, hca⟩

theorem mgrUpdate_store (now : Nat) (st : MState) (s : Session) :
    (mgrUpdate now st s).store = st.store.set s.sid { s with updatedAt := now } := by
  unfold mgrUpdate
  by_cases hlt : now < s.expiresAt
  · simp [hlt]
  · simp [hlt]

theorem mgrStep_inv {cfg : ManagerConfig} {st st' : MState}
    (h : MgrStep cfg st st') (hinv : pausedInv st) : pausedInv st' := by
  cases h with
  | create now newId req =>
    obtain ⟨hst, hca⟩ := hinv
    exact ⟨smap_set_inv hst (sessionOk_of_active rfl) _,
           smap_set_inv hca (sessionOk_of_active rfl) _⟩
  | get now id =>
    exact (mgrGet_inv now st id hinv).1
  | pause now saveRes id =>
    obtain ⟨hG1, hG2⟩ := mgrGet_inv now st id hinv
    unfold mgrPause
    rcases hg : mgrGet now st id with ⟨st1, r⟩
    rw [hg] at hG1 hG2
    cases r with
    | error e => exact hG1
    | ok s =>
      dsimp only
      split
      · exact hG1
      · split
        · exact hG1
        · split
          · exact hG1
          · refine mgrUpdate_inv now st1 _ hG1 ?_
            intro _
            exact ⟨rfl, by simp⟩
  | resume now id =>
    obtain ⟨hG1, hG2⟩ := mgrGet_inv now st id hinv
    unfold mgrResume
    rcases hg : mgrGet now st id with ⟨st1, r⟩
    rw [hg] at hG1 hG2
    cases r with
    | error e => exact hG1
    | ok s =>
      dsimp only
      split
      · exact hG1
      · exact mgrUpdate_inv now st1 _ hG1 (sessionOk_of_active rfl)
  | unbind now id =>
    obtain ⟨hG1, hG2⟩ := mgrGet_inv now st id hinv
    unfold mgrUnbindSandbox
    rcases hg : mgrGet now st id with ⟨st1, r⟩
    rw [hg] at hG1 hG2
    cases r with
    | error e => exact hG1
    | ok s =>
      refine mgrUpdate_inv now st1 _ hG1 ?_
      intro hp
      exact ⟨rfl, ((hG2 s rfl) hp).2⟩
  | touch now id =>
    obtain ⟨hG1, hG2⟩ := mgrGet_inv now st id hinv
    unfold mgrTouch
    rcases hg : mgrGet now st id with ⟨st1, r⟩
    rw [hg] at hG1 hG2
    cases r with
    | error e => exact hG1
    | ok s =>
      refine ⟨smap_set_inv hG1.1 ?_ id, hG1.2⟩
      exact hG2 s rfl

/-- **C2 counterexample.** The claim fails on the cache path: a session
whose stored record is expired (`expiresAt = 5 < now = 10`) but which is
still present in the cache is returned by `Get` instead of the
`Expired` failure. -/
theorem get_cached_expired_counterexample :
    cStateCached.store "x" = some cSessionExp ∧ cSessionExp.expiresAt < 10 ∧
    (mgrGet 10 cStateCached "x").2 = Except.ok cSessionExp :=
  ⟨rfl, by decide, rfl⟩

/-- **C2 (amended).** For every session id absent from the cache whose
stored record has `now > expires_at`, `Get` fails with the `Expired`
error.  (A cache hit is returned without any expiry check; cache
entries are written with TTL `expires_at − now`, so they normally lapse
alongside the session, but nothing in `Get` re-checks.) -/
theorem get_expired_store_miss (now : Nat) (st : MState) (id : String) (s : Session)
    (hc : st.cache id = none) (hs : st.store id = some s) (hexp : s.expiresAt < now) :
    (mgrGet now st id).2 = Except.error GetErr.expired := by
  unfold mgrGet
  rw [hc, hs]
  simp [Session.isExpired, hexp]

/-- Witness for the amended C2 at a concrete store-only state. -/
theorem get_expired_store_miss_witness :
    (mgrGet 10 cStateStoreOnly "x").2 = Except.error GetErr.expired :=
  get_expired_store_miss 10 cStateStoreOnly "x" cSessionExp rfl rfl (by decide)

/-- **C3.** `Pause` (i) fails with one of the two invalid-state errors
whenever the session read by `Get` is not active with a sandbox bound;
(ii) on a successful archive save persists the session with
`workspace_url` set to the returned key, status paused,
`paused_at = now`, the sandbox binding cleared (and `updated_at`
stamped); and (iii) when the save fails the durable store is left
completely unchanged. -/
theorem pause_contract (now : Nat) (saveRes : Except Unit String) (st : MState)
    (id : String) :
    (∀ s, (mgrGet now st id).2 = Except.ok s →
        ¬(s.status = SessionStatus.active ∧ s.sandboxId ≠ "") →
        (mgrPause now saveRes st id).2 = Except.error PauseErr.notActive ∨
        (mgrPause now saveRes st id).2 = Except.error PauseErr.noSandboxBound) ∧
    (∀ s url, (mgrGet now st id).2 = Except.ok s → s.status = SessionStatus.active →
        s.sandboxId ≠ "" → saveRes = Except.ok url →
        (mgrPause now saveRes st id).2 = Except.ok () ∧
        (mgrPause now saveRes st id).1.store s.sid =
          some { s with workspaceUrl := url, status := SessionStatus.paused,
                        pausedAt := some now, sandboxId := "", updatedAt := now }) ∧
    (∀ e, saveRes = Except.error e → (mgrPause now saveRes st id).1.store = st.store) := by
  have hstoreG := mgrGet_store_eq now st id
  rcases hg : mgrGet now st id with ⟨st1, r⟩
  rw [hg] at hstoreG
  refine ⟨?_, ?_, ?_⟩
  · intro s hs hnot
    have hr : r = Except.ok s := hs
    subst hr
    unfold mgrPause
    rw [hg]
    dsimp only
    by_cases hstat : s.status = SessionStatus.active
    · have hsb : s.sandboxId = "" := by
        by_contra hne
        exact hnot ⟨hstat, hne⟩
      right
      rw [if_neg (not_not_intro hstat), if_pos hsb]
    · left
      rw [if_pos hstat]
  · intro s url hs hstat hsb hsave
    have hr : r = Except.ok s := hs
    subst hr
    subst hsave
    have hnstat : ¬ s.status ≠ SessionStatus.active := not_not_intro hstat
    constructor
    · unfold mgrPause
      rw [hg]
      dsimp only
      rw [if_neg hnstat, if_neg hsb]
    · unfold mgrPause
      rw [hg]
      dsimp only
      rw [if_neg hnstat, if_neg hsb, mgrUpdate_store]
      unfold SMap.set
      simp
  · intro e hsave
    subst hsave
    unfold mgrPause
    rw [hg]
    cases r with
    | error e0 => exact hstoreG
    | ok s =>
      dsimp only
      split
      · exact hstoreG
      · split
        · exact hstoreG
        · exact hstoreG

/-- Witness for C3: pausing a concrete active, bound session persists
the paused record with the archive key. -/
theorem pause_contract_witness :
    (mgrPause 5 (Except.ok "workspaces/p1/workspace.tar.gz") cStateBound "p1").2 =
      Except.ok () ∧
    (mgrPause 5 (Except.ok "workspaces/p1/workspace.tar.gz") cStateBound "p1").1.store "p1" =
      some { cSessionBound with
             workspaceUrl := "workspaces/p1/workspace.tar.gz",
             status := SessionStatus.paused, pausedAt := some 5, sandboxId := "",
             updatedAt := 5 } :=
  (pause_contract 5 (Except.ok "workspaces/p1/workspace.tar.gz") cStateBound "p1").2.1
    cSessionBound "workspaces/p1/workspace.tar.gz" rfl rfl (by decide) rfl

/-- **C4 counterexample.** The invariant is not preserved by
`BindSandbox`: after Create, Bind, Pause, a second `BindSandbox` on the
(paused) session persists a record that is paused yet has a sandbox
bound. -/
theorem bind_paused_counterexample :
    ∃ s, c4State4.store "s1" = some s ∧ s.status = SessionStatus.paused ∧
      s.sandboxId = "sb2" :=
  ⟨_, rfl, rfl, rfl⟩

/-- **C4 (amended).** For every session record reachable through any
sequence of `Create`, `Get`, `Pause`, `Resume`, `UnbindSandbox` and
`Touch`, paused implies no sandbox bound and `paused_at` set.
(`BindSandbox` — which sets the binding with no status precondition —
and `Update` — which persists an arbitrary caller-supplied snapshot —
are excluded, as the counterexample shows they break the invariant.) -/
theorem mgr_paused_invariant (cfg : ManagerConfig) :
    (∀ st st', pausedInv st → MgrStep cfg st st' → pausedInv st') ∧
    (∀ st, MgrReachable cfg st → ∀ id s, st.store id = some s →
      s.status = SessionStatus.paused → s.sandboxId = "" ∧ s.pausedAt ≠ none) := by
  constructor
  · intro st st' hinv hstep
    exact mgrStep_inv hstep hinv
  · intro st h
    have key : pausedInv st := by
      induction h with
      | refl =>
        constructor <;> · intro id s hs; simp [mInit, SMap.empty] at hs
      | tail _ hstep ih => exact mgrStep_inv hstep ih
    intro id s hs
    exact key.1 id s hs

/-- Witness for the amended C4: a `Touch` step on a concrete state
holding a well-formed paused session keeps the stored record paused
with no sandbox bound and `paused_at` set. -/
theorem mgr_paused_invariant_witness :
    ((mgrTouch 3 cStatePaused "q1").1.store "q1" =
        some { cSessionPaused with lastActiveAt := 3 }) ∧
    { cSessionPaused with lastActiveAt := 3 }.sandboxId = "" ∧
    { cSessionPaused with lastActiveAt := 3 }.pausedAt ≠ none := by
  have hmap : pausedInvMap (SMap.empty.set "q1" cSessionPaused) := by
    intro id s hs
    unfold SMap.set SMap.empty at hs
    by_cases hid : id = "q1"
    · rw [if_pos hid] at hs
      cases hs
      intro _
      exact ⟨rfl, by decide⟩
    · rw [if_neg hid] at hs
      cases hs
  have h' := (mgr_paused_invariant c4Cfg).1 cStatePaused (mgrTouch 3 cStatePaused "q1").1
    ⟨hmap, hmap⟩ (MgrStep.touch cStatePaused 3 "q1")
  exact ⟨rfl, h'.1 "q1" { cSessionPaused with lastActiveAt := 3 } rfl rfl⟩

/-- **C5.** `Create` yields `expires_at = now + ttl` with the effective
ttl equal to the requested ttl capped at `max_ttl`, defaulting to
`default_ttl` when the request carries ttl 0 (under the configured
relationship `default_ttl ≤ max_ttl`). -/
theorem create_ttl_spec (cfg : ManagerConfig) (now : Nat) (newId : String)
    (req : CreateSessionRequest) (st : MState) (hdm : cfg.defaultTTL ≤ cfg.maxTTL) :
    (cfg.maxTTL < req.ttl →
      (mgrCreate cfg now newId req st).2.expiresAt ≤ now + cfg.maxTTL) ∧
    (req.ttl = 0 →
      (mgrCreate cfg now newId req st).2.expiresAt = now + cfg.defaultTTL) ∧
    (mgrCreate cfg now newId req st).2.expiresAt =
      now + min (if req.ttl = 0 then cfg.defaultTTL else req.ttl) cfg.maxTTL := by
  have hexp : (mgrCreate cfg now newId req st).2.expiresAt =
      now + (if cfg.maxTTL < (if req.ttl = 0 then cfg.defaultTTL else req.ttl)
             then cfg.maxTTL else (if req.ttl = 0 then cfg.defaultTTL else req.ttl)) := rfl
  refine ⟨?_, ?_, ?_⟩
  · intro h
    rw [hexp]
    split_ifs <;> omega
  · intro h
    rw [hexp]
    simp only [h, if_true]
    split_ifs <;> omega
  · rw [hexp, Nat.min_def]
    split_ifs <;> omega

/-- Witness for C5: with `default_ttl = 10`, `max_ttl = 100`, a request
with ttl 0 expires at `now + 10`. -/
theorem create_ttl_spec_witness :
    (mgrCreate { defaultTTL := 10, maxTTL := 100 } 5 "n1"
        { userId := "u", image := "", cpuCount := 0, memoryMB := 0, ttl := 0 }
        mInit).2.expiresAt = 5 + 10 :=
  (create_ttl_spec { defaultTTL := 10, maxTTL := 100 } 5 "n1"
    { userId := "u", image := "", cpuCount := 0, memoryMB := 0, ttl := 0 }
    mInit (by decide)).2.1 rfl

/-! ## Docker-runtime theorems -/

/-- **C6 counterexample.** Destroying the same sandbox twice is not
error-free: the second `Destroy` fails (`Get` no longer finds the id),
so `DockerRuntime.Destroy` is not idempotent as claimed. -/
theorem destroy_twice_counterexample :
    (dockerDestroy (Except.ok ()) cDockerState "a").2 = Except.ok () ∧
    (dockerDestroy (Except.ok ()) (dockerDestroy (Except.ok ()) cDockerState "a").1 "a").2 =
      Except.error "sandbox not found: a" :=
  ⟨rfl, rfl⟩

/-- **C6 (amended).** After a successful `Destroy` the sandbox is gone
from the runtime map, and a second `Destroy` of the same id fails with
the not-found error (whatever the backend remove would have returned),
rather than succeeding idempotently. -/
theorem destroy_twice_not_found (rm : Except Unit Unit) (st : DockerState) (id : String)
    (sb : Sandbox) (h : st.sandboxes id = some sb) :
    (dockerDestroy (Except.ok ()) st id).2 = Except.ok () ∧
    (dockerDestroy rm (dockerDestroy (Except.ok ()) st id).1 id).2 =
      Except.error ("sandbox not found: " ++ id) := by
  unfold dockerDestroy dockerGet DockerState.del
  rw [h]
  simp

/-- Witness for the amended C6 at the concrete one-sandbox runtime. -/
theorem destroy_twice_not_found_witness :
    (dockerDestroy (Except.ok ()) cDockerState "a").2 = Except.ok () ∧
    (dockerDestroy (Except.ok ()) (dockerDestroy (Except.ok ()) cDockerState "a").1 "a").2 =
      Except.error ("sandbox not found: " ++ "a") :=
  destroy_twice_not_found (Except.ok ()) cDockerState "a" cSandboxA rfl

theorem limitedWriter_write_inv (lw : LimitedWriter) (p : List Char)
    (h1 : lw.buf.length = lw.written) (h2 : lw.written ≤ lw.limit) :
    ((lw.write p).1).buf.length = ((lw.write p).1).written ∧
    ((lw.write p).1).written ≤ lw.limit ∧
    ((lw.write p).1).limit = lw.limit := by
  unfold LimitedWriter.write
  by_cases hfull : lw.limit ≤ lw.written
  · rw [if_pos hfull]
    exact ⟨h1, h2, rfl⟩
  · rw [if_neg hfull]
    dsimp only
    refine ⟨?_, ?_, rfl⟩
    · rw [List.length_append, h1]
    · have hq : (if lw.limit - lw.written < p.length
            then p.take (lw.limit - lw.written) else p).length ≤ lw.limit - lw.written := by
        split
        · rw [List.length_take]
          exact Nat.min_le_left _ _
        · omega
      omega

theorem stdCopyLoop_le (frames : List (Bool × List Char)) :
    ∀ (outW errW : LimitedWriter),
      outW.buf.length = outW.written → outW.written ≤ outW.limit →
      errW.buf.length = errW.written → errW.written ≤ errW.limit →
      (stdCopyLoop outW errW frames).1.buf.length ≤ outW.limit ∧
      (stdCopyLoop outW errW frames).2.buf.length ≤ errW.limit := by
  induction frames with
  | nil =>
    intro o e h1 h2 h3 h4
    constructor
    · rw [stdCopyLoop]
      rw [h1]
      exact h2
    · rw [stdCopyLoop]
      rw [h3]
      exact h4
  | cons f rest ih =>
    intro o e h1 h2 h3 h4
    obtain ⟨isErr, chunk⟩ := f
    cases isErr with
    | true =>
      obtain ⟨w1, w2, w3⟩ := limitedWriter_write_inv e chunk h3 h4
      unfold stdCopyLoop
      rw [if_pos rfl]
      dsimp only
      split
      · constructor
        · show o.buf.length ≤ o.limit
          rw [h1]
          exact h2
        · show (e.write chunk).1.buf.length ≤ e.limit
          rw [w1]
          exact w2
      · have hrec := ih o (e.write chunk).1 h1 h2 w1 (by rw [w3]; exact w2)
        rw [w3] at hrec
        exact hrec
    | false =>
      obtain ⟨w1, w2, w3⟩ := limitedWriter_write_inv o chunk h1 h2
      unfold stdCopyLoop
      rw [if_neg Bool.false_ne_true]
      dsimp only
      split
      · constructor
        · show (o.write chunk).1.buf.length ≤ o.limit
          rw [w1]
          exact w2
        · show e.buf.length ≤ e.limit
          rw [h3]
          exact h4
      · have hrec := ih (o.write chunk).1 e w1 (by rw [w3]; exact w2) h3 h4
        rw [w3] at hrec
        exact hrec

theorem stdCopyCapture_le (limit : Nat) (frames : List (Bool × List Char)) :
    (stdCopyCapture limit frames).1.buf.length ≤ limit ∧
    (stdCopyCapture limit frames).2.buf.length ≤ limit :=
  stdCopyLoop_le frames (LimitedWriter.new limit) (LimitedWriter.new limit)
    rfl (Nat.zero_le _) rfl (Nat.zero_le _)

/-- **C8.** For every successful Exec and any volume of process output,
the returned stdout and stderr each have length at most the configured
`MaxOutputSize`, the result carries no error message, and whether the
call succeeds does not depend on the output frames at all — excess
output is silently discarded per stream, never surfaced as an error. -/
theorem exec_output_capped (cfg : RuntimeConfig) (env : ExecEnv) (st : DockerState)
    (id : String) (req : ExecRequest) (res : ExecResult)
    (h : (dockerExec cfg env st id req).2 = Except.ok res) :
    res.stdout.length ≤ cfg.maxOutputSize ∧ res.stderr.length ≤ cfg.maxOutputSize ∧
    res.errMsg = "" ∧
    ∀ frames', ∃ res',
      (dockerExec cfg { env with frames := frames' } st id req).2 = Except.ok res' := by
  unfold dockerExec at h ⊢
  cases hg : dockerGet st id with
  | error e =>
    rw [hg] at h
    cases h
  | ok sb =>
    rw [hg] at h
    dsimp only at h ⊢
    by_cases h1 : env.execCreateOk = false
    · rw [if_pos h1] at h; cases h
    · rw [if_neg h1] at h
      by_cases h2 : env.attachOk = false
      · rw [if_pos h2] at h; cases h
      · rw [if_neg h2] at h
        cases hI : env.inspectExit with
        | none => rw [hI] at h; dsimp only at h; cases h
        | some code =>
          rw [hI] at h
          dsimp only at h
          injection h with h
          have hcap := stdCopyCapture_le cfg.maxOutputSize env.frames
          refine ⟨?_, ?_, ?_, ?_⟩
          · rw [← h]; exact hcap.1
          · rw [← h]; exact hcap.2
          · rw [← h]
          · intro frames'
            refine ⟨{ exitCode := code,
                      stdout := String.mk (stdCopyCapture cfg.maxOutputSize frames').1.buf,
                      stderr := String.mk (stdCopyCapture cfg.maxOutputSize frames').2.buf,
                      duration := env.duration, timedOut := env.ctxTimedOut,
                      errMsg := "" }, ?_⟩
            rw [if_neg h1, if_neg h2]

/-- Witness for C8 with a 3-byte cap: a 5-byte stdout write is
truncated to `"hel"` and both streams respect the cap. -/
theorem exec_output_capped_witness :
    ({ exitCode := 0, stdout := "hel", stderr := "", duration := 2, timedOut := false,
       errMsg := "" } : ExecResult).stdout.length ≤ 3 ∧
    ({ exitCode := 0, stdout := "hel", stderr := "", duration := 2, timedOut := false,
       errMsg := "" } : ExecResult).stderr.length ≤ 3 := by
  have h := exec_output_capped c8Cfg c8Env cDockerState "a" cReqEcho
    { exitCode := 0, stdout := "hel", stderr := "", duration := 2, timedOut := false,
      errMsg := "" } rfl
  exact ⟨h.1, h.2.1⟩

/-- **C9.** `Exec` on any registered sandbox sets the shared sandbox
record to `active` (with a fresh `lastActiveAt`) on entry, and the
deferred reset leaves it `idle` when the call returns — on every path
after the entry bookkeeping, success included.  The runtime map holds
the same record the pool's active set points to, so a sandbox checked
out of the pool also reads `idle` after any exec completes. -/
theorem exec_status_reset (cfg : RuntimeConfig) (env : ExecEnv) (st : DockerState)
    (id : String) (req : ExecRequest) (sb : Sandbox)
    (h : st.sandboxes id = some sb) :
    (execEntryState st id env.now).sandboxes id =
      some { sb with status := SbStatus.active, lastActiveAt := env.now } ∧
    (dockerExec cfg env st id req).1.sandboxes id =
      some { sb with status := SbStatus.idle, lastActiveAt := env.now } := by
  have hg : dockerGet st id = Except.ok sb := by
    unfold dockerGet
    rw [h]
  constructor
  · unfold execEntryState
    rw [h]
    unfold DockerState.set
    simp
  · unfold dockerExec
    rw [hg]
    dsimp only
    split
    · unfold DockerState.set; simp
    · split
      · unfold DockerState.set; simp
      · split
        · unfold DockerState.set; simp
        · unfold DockerState.set; simp

/-- Witness for C9: after a successful exec on the checked-out sandbox
`a`, its status reads `idle` with the exec's entry timestamp. -/
theorem exec_status_reset_witness :
    (dockerExec cRuntimeConfig cExecEnv cDockerState "a" cReqEcho).1.sandboxes "a" =
      some { cSandboxA with status := SbStatus.idle, lastActiveAt := 9 } :=
  (exec_status_reset cRuntimeConfig cExecEnv cDockerState "a" cReqEcho cSandboxA rfl).2

theorem parseLsLine_modTime (now : Nat) (basePath line : List Char) (f : FileInfo)
    (h : parseLsLine now basePath line = some f) : f.modTime = now := by
  unfold parseLsLine at h
  dsimp only at h
  split at h
  · cases h
  · split at h
    · cases h
    · split at h
      · cases h
      · split at h
        · cases h
        · injection h with h
          rw [← h]

theorem parseLsOutput_modTime (now : Nat) (output basePath : String) (f : FileInfo)
    (h : f ∈ parseLsOutput now output basePath) : f.modTime = now := by
  unfold parseLsOutput at h
  rcases List.mem_filterMap.mp h with ⟨line, hline, hparse⟩
  exact parseLsLine_modTime now basePath.data line f hparse

/-- **C10.** Every `FileInfo` entry returned by a successful
`ListFiles` has `mod_time` equal to the wall-clock instant at which the
listing was parsed (`parseNow`), not the file's actual modification
time: the parser stamps `time.Now()` and never consults the line's
date columns. -/
theorem listfiles_modtime_parse_time (cfg : RuntimeConfig) (env : ExecEnv)
    (parseNow : Nat) (st : DockerState) (id path : String) (files : List FileInfo)
    (h : (dockerListFiles cfg env parseNow st id path).2 = Except.ok files)
    (f : FileInfo) (hf : f ∈ files) : f.modTime = parseNow := by
  unfold dockerListFiles at h
  rcases hE : dockerExec cfg env st id
      { code := "", language := "", command := ["ls", "-la", path],
        workDir := "", timeout := 0 } with ⟨st1, r⟩
  rw [hE] at h
  cases r with
  | error e => cases h
  | ok res =>
    dsimp only at h
    by_cases hx : res.exitCode ≠ 0
    · rw [if_pos hx] at h; cases h
    · rw [if_neg hx] at h
      have hfiles : parseLsOutput parseNow res.stdout path = files := by
        injection h
      rw [← hfiles] at hf
      exact parseLsOutput_modTime parseNow res.stdout path f hf

/-- Witness for C10: the listing line dated `Jan 15 10:30` comes back
with `mod_time = 77`, the parse-time clock value. -/
theorem listfiles_modtime_parse_time_witness :
    ({ name := "hello.txt", path := "/workspace/hello.txt", size := 1234,
       isDir := false, modTime := 77 } : FileInfo).modTime = 77 :=
  listfiles_modtime_parse_time cRuntimeConfig cExecEnvLs 77 cDockerState "a" "/workspace"
    (parseLsOutput 77 cLsOut "/workspace") rfl
    { name := "hello.txt", path := "/workspace/hello.txt", size := 1234,
      isDir := false, modTime := 77 } (by decide)

end CloudSandbox
